import Mathlib

/-!
Shallow embedding of the `config` Go package (metakeule/config): the
option-registry, merge/validation pipeline and textual codec, together with
theorems checking the natural-language specification against it.

Modelling conventions:
* Go maps are association lists with insert-or-replace semantics; iteration
  order is the list order (a determinization of Go's randomized map order —
  every theorem below that iterates a map does so on a single-entry map,
  where the order is immaterial).
* Go `string` values are Lean `String`s; Go byte-based slicing/length is
  modelled on the character list `String.data` (all inputs considered by the
  theorems are ASCII, where bytes and characters coincide).
* fallible Go functions returning `error` are modelled with `Except`/`Option`;
  functions that mutate the receiver and return an error are modelled as
  `Config → ... → Config × Option ConfigError` (state after the call plus the
  returned error), matching Go's mutate-then-return-error behaviour.
* `panic` in accessors is modelled as an `Except.error` result.
* The repository's error-type declarations (`errors.go`) are not part of the
  sources; error values are modelled structurally, one constructor per
  construction site appearing in the sources, carrying the same data.
-/

/-! ## Go standard-library string helpers (models) -/

/-- `'A' ≤ c ≤ 'Z'`. -/
def isUpperAZ (c : Char) : Bool := 'A' ≤ c && c ≤ 'Z'

/-- `'0' ≤ c ≤ '9'`. -/
def isDigit09 (c : Char) : Bool := '0' ≤ c && c ≤ '9'

/-- `'a' ≤ c ≤ 'z'`. -/
def isLowerAZ (c : Char) : Bool := 'a' ≤ c && c ≤ 'z'

/-- ASCII model of Go `unicode` case mapping used by `strings.ToUpper`. -/
def charToUpper (c : Char) : Char := if isLowerAZ c then Char.ofNat (c.toNat - 32) else c

/-- ASCII model of the case mapping used by `strings.ToLower`. -/
def charToLower (c : Char) : Char := if isUpperAZ c then Char.ofNat (c.toNat + 32) else c

/-- Model of `strings.ToUpper` (ASCII). -/
def stringsToUpper (s : String) : String := ⟨s.data.map charToUpper⟩

/-- Model of `strings.ToLower` (ASCII). -/
def stringsToLower (s : String) : String := ⟨s.data.map charToLower⟩

/-- The ASCII whitespace recognized by Go `unicode.IsSpace` (model). -/
def isGoSpace (c : Char) : Bool :=
  c = ' ' || c = '\t' || c = '\n' || c = '\x0b' || c = '\x0c' || c = '\r'

/-- Model of `strings.TrimSpace` (ASCII whitespace). -/
def stringsTrimSpace (s : String) : String :=
  ⟨((s.data.dropWhile isGoSpace).reverse.dropWhile isGoSpace).reverse⟩

/-- Model of `strings.TrimRight(s, " ")`. -/
def stringsTrimRightSpace (s : String) : String :=
  ⟨(s.data.reverse.dropWhile (fun c => c = ' ')).reverse⟩

/-- Model of `strings.TrimLeft(s, "-")`. -/
def stringsTrimLeftDash (s : String) : String :=
  ⟨s.data.dropWhile (fun c => c = '-')⟩

/-- Split a character list at every occurrence of `sep` (Go `strings.Split`
with a one-character separator). -/
def splitOnChar (sep : Char) : List Char → List (List Char)
  | [] => [[]]
  | c :: rest =>
    if c = sep then [] :: splitOnChar sep rest
    else
      match splitOnChar sep rest with
      | g :: gs => (c :: g) :: gs
      | [] => [[c]]

/-- Model of `strings.Split(s, sep)` for a one-character separator. -/
def stringsSplit (s : String) (sep : Char) : List String :=
  (splitOnChar sep s.data).map (fun l => ⟨l⟩)

/-- Join character lists with a separator list (Go `strings.Join`). -/
def joinSepL (sep : List Char) : List (List Char) → List Char
  | [] => []
  | [w] => w
  | w :: ws => w ++ sep ++ joinSepL sep ws

/-- Model of `strings.Join(elems, sep)`. -/
def stringsJoin (elems : List String) (sep : String) : String :=
  ⟨joinSepL sep.data (elems.map String.data)⟩

/-- Index of the first occurrence of a character in a list. -/
def listIndexOfChar : List Char → Char → Option Nat
  | [], _ => none
  | c :: rest, t =>
    if c = t then some 0 else (listIndexOfChar rest t).map (fun n => n + 1)

/-- Model of `strings.Index(s, sub)` for a one-character `sub`:
`none` models Go's `-1`. -/
def stringsIndexChar (s : String) (c : Char) : Option Nat :=
  listIndexOfChar s.data c

/-- Model of `strings.HasPrefix`. -/
def stringsStartsWith (s head : String) : Bool :=
  head.data.isPrefixOf s.data

/-- Model of `strings.Contains(s, c)` for a one-character pattern. -/
def stringsContainsChar (s : String) (c : Char) : Bool :=
  s.data.contains c

/-- Go slice `s[a:b]` on the character list (ASCII byte = char). -/
def strSlice (s : String) (a b : Nat) : String := ⟨(s.data.take b).drop a⟩

/-- Go slice `s[a:]`. -/
def strFrom (s : String) (a : Nat) : String := ⟨s.data.drop a⟩

/-- Go `len(s)` (bytes; ASCII model). -/
def strLen (s : String) : Nat := s.data.length

/-- Model of `bufio.Scanner` with `ScanLines`: the sequence of lines of the
input, without their terminators; a final newline does not produce an extra
empty line, and a line's trailing `\r` is dropped. -/
def goScanLines (s : String) : List String :=
  if s.data.isEmpty then []
  else
    let ls := splitOnChar '\n' s.data
    let ls := if s.data.getLast? = some '\n' then ls.dropLast else ls
    ls.map (fun l => if l.getLast? = some '\r' then ⟨l.dropLast⟩ else ⟨l⟩)

/-- Model of `filepath.Join` on Unix: empty components are skipped, the rest
joined with `/` (path cleaning beyond that is not modelled; no input used
here needs it). -/
def filepathJoin (elems : List String) : String :=
  stringsJoin (elems.filter (fun e => !e.data.isEmpty)) "/"

/-! ## Go strconv / json / time parsing models -/

/-- Model of `strconv.ParseBool`: the exact set of accepted strings. -/
def strconvParseBool (s : String) : Option Bool :=
  if s = "1" || s = "t" || s = "T" || s = "true" || s = "TRUE" || s = "True" then some true
  else if s = "0" || s = "f" || s = "F" || s = "false" || s = "FALSE" || s = "False" then some false
  else none

/-- Decimal digits to a natural number. -/
def digitsToNat (ds : List Char) : Nat :=
  ds.foldl (fun acc c => acc * 10 + (c.toNat - '0'.toNat)) 0

/-- Model of `strconv.ParseInt(s, 10, 32)`: optional sign, one or more
decimal digits, result within the `int32` range (out of range is an error,
as Go reports `ErrRange` and the caller treats any error as failure). -/
def strconvParseInt32 (s : String) : Option Int :=
  let (sign, digits) : Int × List Char :=
    match s.data with
    | '+' :: r => (1, r)
    | '-' :: r => (-1, r)
    | r => (1, r)
  if digits.isEmpty then none
  else if digits.all isDigit09 then
    let v : Int := sign * (digitsToNat digits : Int)
    if v < -(2 ^ 31) || v > 2 ^ 31 - 1 then none else some v
  else none

/-- Syntactic model of `strconv.ParseFloat(s, 32)` restricted to plain
decimal notation (`[+-]? digits [. digits] [(e|E) [+-]? digits]`). No
verified claim exercises float parsing; parsed floats are carried as their
source text throughout. -/
def parseFloat32Syntax (s : String) : Bool :=
  let ds := match s.data with
    | '+' :: r => r
    | '-' :: r => r
    | r => r
  let intPart := ds.takeWhile isDigit09
  let rest := ds.dropWhile isDigit09
  let (fracOK, rest2) : Bool × List Char :=
    match rest with
    | '.' :: r => (!(r.takeWhile isDigit09).isEmpty, r.dropWhile isDigit09)
    | r => (true, r)
  let expOK : Bool :=
    match rest2 with
    | [] => true
    | e :: r =>
      if e = 'e' || e = 'E' then
        let r := match r with
          | '+' :: r2 => r2
          | '-' :: r2 => r2
          | r2 => r2
        !r.isEmpty && r.all isDigit09 && (r.dropWhile isDigit09).isEmpty
      else false
  !intPart.isEmpty && fracOK && expOK

/-- Syntactic model of `time.Parse(time.RFC3339, s)`: shape check
`YYYY-MM-DDThh:mm:ss[.frac](Z|(+|-)hh:mm)`. No verified claim exercises
datetime parsing; parsed timestamps are carried as their source text. -/
def parseRFC3339Syntax (s : String) : Bool :=
  let l := s.data
  let core := l.take 19
  let shapeOK :=
    core.length = 19 &&
    (List.range 19).all (fun i =>
      match core.get? i with
      | none => false
      | some c =>
        if i = 4 || i = 7 then c = '-'
        else if i = 10 then c = 'T'
        else if i = 13 || i = 16 then c = ':'
        else isDigit09 c)
  let zone := l.drop 19
  let zone := match zone with
    | '.' :: r => r.dropWhile isDigit09
    | r => r
  let zoneOK :=
    match zone with
    | ['Z'] => true
    | sgn :: h1 :: h2 :: ':' :: m1 :: m2 :: [] =>
      (sgn = '+' || sgn = '-') && isDigit09 h1 && isDigit09 h2 && isDigit09 m1 && isDigit09 m2
    | _ => false
  shapeOK && zoneOK

/-- Skip JSON insignificant whitespace. -/
def jsonWS (l : List Char) : List Char :=
  l.dropWhile (fun c => c = ' ' || c = '\t' || c = '\n' || c = '\r')

/-- Parse a JSON string body after the opening quote; returns the remainder
after the closing quote. -/
def jsonStringRest : List Char → Option (List Char)
  | [] => none
  | '"' :: r => some r
  | '\\' :: c :: r =>
    if c = '"' || c = '\\' || c = '/' || c = 'b' || c = 'f' || c = 'n' || c = 'r' || c = 't' then
      jsonStringRest r
    else if c = 'u' then
      match r with
      | a :: b :: d :: e :: r2 =>
        if [a, b, d, e].all (fun x => isDigit09 x || ('a' ≤ x && x ≤ 'f') || ('A' ≤ x && x ≤ 'F'))
        then jsonStringRest r2 else none
      | _ => none
    else none
  | _ :: r => jsonStringRest r

/-- Parse a JSON number; returns the remainder. -/
def jsonNumberRest (l : List Char) : Option (List Char) :=
  let l := match l with
    | '-' :: r => r
    | r => r
  let intOK : Bool × List Char :=
    match l with
    | '0' :: r => (true, r)
    | c :: r =>
      if isDigit09 c && c ≠ '0' then (true, r.dropWhile isDigit09) else (false, r)
    | [] => (false, [])
  match intOK with
  | (false, _) => none
  | (true, r) =>
    let r2 := match r with
      | '.' :: d :: r3 => if isDigit09 d then some (r3.dropWhile isDigit09) else none
      | r3 => some r3
    match r2 with
    | none => none
    | some r3 =>
      match r3 with
      | e :: r4 =>
        if e = 'e' || e = 'E' then
          let r5 := match r4 with
            | '+' :: r6 => r6
            | '-' :: r6 => r6
            | r6 => r6
          match r5 with
          | d :: _ => if isDigit09 d then some (r5.dropWhile isDigit09) else none
          | [] => none
        else some r3
      | [] => some r3

mutual

/-- Fuel-based parser for one JSON value; returns the remainder. Models the
syntax accepted by Go `encoding/json.Unmarshal` into a generic value. -/
def jsonValueRest : Nat → List Char → Option (List Char)
  | 0, _ => none
  | _ + 1, [] => none
  | fuel + 1, c :: r =>
    if c = '"' then jsonStringRest r
    else if c = 't' then if r.take 3 = ['r', 'u', 'e'] then some (r.drop 3) else none
    else if c = 'f' then if r.take 4 = ['a', 'l', 's', 'e'] then some (r.drop 4) else none
    else if c = 'n' then if r.take 3 = ['u', 'l', 'l'] then some (r.drop 3) else none
    else if c = '\x7b' then
      let r1 := jsonWS r
      match r1 with
      | '\x7d' :: r2 => some r2
      | _ => jsonMembersRest fuel r1
    else if c = '[' then
      let r1 := jsonWS r
      match r1 with
      | ']' :: r2 => some r2
      | _ => jsonElementsRest fuel r1
    else jsonNumberRest (c :: r)

/-- Parse object members `string : value (, string : value)*` and the
closing brace. -/
def jsonMembersRest : Nat → List Char → Option (List Char)
  | 0, _ => none
  | fuel + 1, l =>
    match jsonWS l with
    | '"' :: r =>
      match jsonStringRest r with
      | none => none
      | some r2 =>
        match jsonWS r2 with
        | ':' :: r3 =>
          match jsonValueRest fuel (jsonWS r3) with
          | none => none
          | some r4 =>
            match jsonWS r4 with
            | ',' :: r5 => jsonMembersRest fuel r5
            | '\x7d' :: r5 => some r5
            | _ => none
        | _ => none
    | _ => none

/-- Parse array elements `value (, value)*` and the closing bracket. -/
def jsonElementsRest : Nat → List Char → Option (List Char)
  | 0, _ => none
  | fuel + 1, l =>
    match jsonValueRest fuel (jsonWS l) with
    | none => none
    | some r =>
      match jsonWS r with
      | ',' :: r2 => jsonElementsRest fuel r2
      | ']' :: r2 => some r2
      | _ => none

end

/-- Model of `json.Unmarshal(data, &v)` for a generic `v`: the input is one
JSON value with nothing but whitespace around it. -/
def jsonOK (s : String) : Bool :=
  match jsonValueRest (s.data.length + 1) (jsonWS s.data) with
  | none => false
  | some rest => (jsonWS rest).isEmpty

/-! ## Name/type grammar (`helpers.go`) -/

/-- Model of the regular expression `^[A-Z][A-Z0-9]+$` (`word_regexp`). -/
def wordRegexpMatch (w : String) : Bool :=
  match w.data with
  | [] => false
  | c :: rest => isUpperAZ c && !rest.isEmpty && rest.all (fun d => isUpperAZ d || isDigit09 d)

/-- Model of `ValidateName`: `true` models a `nil` error, `false` the
`ErrInvalidName` result. Splits on `_` and checks each word. -/
def ValidateName (name : String) : Bool :=
  if name = "" then false
  else (stringsSplit name '_').all wordRegexpMatch

/-- Model of `VersionRegexp` `^[a-z0-9-.]+$` / `ValidateVersion`. -/
def ValidateVersion (version : String) : Bool :=
  !version.data.isEmpty &&
    version.data.all (fun c => isLowerAZ c || isDigit09 c || c = '-' || c = '.')

/-- Model of `ValidateType`: membership in the six-type enum. -/
def ValidateType (typ : String) : Bool :=
  typ = "bool" || typ = "int32" || typ = "float32" || typ = "string" ||
    typ = "datetime" || typ = "json"

/-- Model of `ShortflagRegexp` `^[a-z]$` / `ValidateShortflag`. -/
def ValidateShortflag (shortflag : String) : Bool :=
  shortflag = "" || (match shortflag.data with
    | [c] => isLowerAZ c
    | _ => false)

/-- Model of `argToKey`: strip leading dashes, upper-case, `-` to `_`. -/
def argToKey (arg : String) : String :=
  let out := stringsTrimLeftDash arg
  let out := stringsToUpper out
  ⟨out.data.map (fun c => if c = '-' then '_' else c)⟩

/-- Model of `keyToArg`: `_` to `-`, lower-case, `--` in front. -/
def keyToArg (key : String) : String :=
  let out : String := ⟨key.data.map (fun c => if c = '_' then '-' else c)⟩
  "--" ++ stringsToLower out

/-! ## Values (`interface{}` contents) -/

/-- The runtime values a `Config`'s `values` map can hold. Every value
reaching the map passes through `stringToValue` or the registration-time
default validation, so exactly these five Go types occur (`json` values are
stored as their raw `string`). `float32` and `time.Time` payloads are
carried as their source text: no claim verified in this file depends on
float arithmetic or on date reformatting. -/
inductive Value where
  | bool (b : Bool)
  | int32 (i : Int)
  | float32 (raw : String)
  | str (s : String)
  | time (raw : String)
deriving Repr, DecidableEq

/-- Model of `fmt.Sprintf("%v", v)` for stored values (used by
`LoadDefaults` location tracking and by `writeConfigValues`). For the
text-modelled payloads (`float32`, `time`) the source text is printed. -/
def goSprintV : Value → String
  | .bool b => if b then "true" else "false"
  | .int32 i => toString i
  | .float32 raw => raw
  | .str s => s
  | .time raw => raw

/-- Model of `stringToValue`: coerce a raw string per declared type. `none`
models a non-nil error (callers discard the inner error value). -/
def stringToValue (typ raw : String) : Option Value :=
  if typ = "bool" then (strconvParseBool raw).map Value.bool
  else if typ = "int32" then (strconvParseInt32 raw).map Value.int32
  else if typ = "float32" then
    if parseFloat32Syntax raw then some (Value.float32 raw) else none
  else if typ = "datetime" then
    if parseRFC3339Syntax raw then some (Value.time raw) else none
  else if typ = "string" then some (Value.str raw)
  else if typ = "json" then if jsonOK raw then some (Value.str raw) else none
  else none

/-! ## Errors

The repository's error declarations file is not among the sources; errors
are modelled structurally, one constructor per construction site in the
available sources, carrying the same data the Go constructors receive. -/

inductive ConfigError where
  | errInvalidName                                                    -- ErrInvalidName
  | invalidName (name : String)                                       -- InvalidNameError(name)
  | invalidAppName (app : String)                                     -- ErrInvalidAppName(app)
  | invalidOptionName (name : String)                                 -- ErrInvalidOptionName(name)
  | invalidVersion                                                    -- ErrInvalidVersion
  | invalidType                                                       -- ErrInvalidType
  | invalidTypeFor (key typ : String)                                 -- InvalidTypeError{key, typ}
  | invalidDefault                                                    -- ErrInvalidDefault
  | errInvalidValue                                                   -- ErrInvalidValue
  | missingHelp                                                       -- ErrMissingHelp
  | errInvalidShortflag                                               -- ErrInvalidShortflag
  | doubleOption (key : String)                                       -- ErrDoubleOption(key)
  | doubleShortflag (shortflag : String)                              -- ErrDoubleShortflag
  | subSubCommand                                                     -- ErrSubSubCommand
  | unknownOption (version key : String)                              -- UnknownOptionError{version, key}
  | invalidValue (key val : String)                                   -- InvalidValueError{key, val}
  | emptyValue (key : String)                                         -- EmptyValueError(key)
  | missingOption (version key : String)                              -- MissingOptionError{version, key}
  | headerAppMismatch (appName got : String)                          -- fmt.Errorf("invalid config header: ...")
  | versionSkew (val key fileVersion runningVersion : String)         -- fmt.Errorf("value %#v of option %s, ...")
  | invalidConfigFile (location version : String) (inner : ConfigError)  -- InvalidConfigFileError
  | invalidConfigEnv (version envName : String) (inner : ConfigError)    -- InvalidConfigEnv
  | invalidConfigFlag (version arg : String) (inner : ConfigError)       -- InvalidConfigFlag
  | invalidConfig (version : String) (inner : ConfigError)               -- InvalidConfig
  | invalidValueForOption (key : String) (inner : ConfigError)        -- fmt.Errorf("invalid value for option %s: %s", ...)
  | cantMergeFile (path : String) (inner : ConfigError)               -- fmt.Errorf("can't merge file %s: %s", ...)
  | message (msg : String)                                            -- errors.New / fmt.Errorf
  | runtimePanic (what : String)                                      -- Go runtime panics (type assertion, slice bounds)
deriving Repr, DecidableEq

/-! ## Option specs (`options.go` `Option`) -/

/-- Model of the Go `Option` struct (the name `Option` is taken in Lean;
the Go field `Type` is spelt `type_`). -/
structure Opt where
  Name : String
  Required : Bool
  type_ : String
  Help : String
  Default : Option Value
  Shortflag : String
deriving Repr, DecidableEq

/-- Model of `Option.ValidateValue`: `nil` (`none`) is valid only for
non-required options; otherwise the value's runtime type must match the
declared type (`json` accepts a string of valid JSON text). -/
def Opt.ValidateValue (o : Opt) (val : Option Value) : Except ConfigError Unit :=
  match val with
  | none => if o.Required then .error .errInvalidValue else .ok ()
  | some v =>
    match v with
    | .bool _ => if o.type_ ≠ "bool" then .error .errInvalidValue else .ok ()
    | .int32 _ => if o.type_ ≠ "int32" then .error .errInvalidValue else .ok ()
    | .float32 _ => if o.type_ ≠ "float32" then .error .errInvalidValue else .ok ()
    | .str s =>
      if o.type_ ≠ "string" && o.type_ ≠ "json" then .error .errInvalidValue
      else if o.type_ = "json" && !jsonOK s then .error (.message "json unmarshal error")
      else .ok ()
    | .time _ => if o.type_ ≠ "datetime" then .error .errInvalidValue else .ok ()

/-- Model of `Option.ValidateDefault`. -/
def Opt.ValidateDefault (o : Opt) : Except ConfigError Unit :=
  match o.ValidateValue o.Default with
  | .error _ => .error .invalidDefault
  | .ok _ => .ok ()

/-- Model of `Option.Validate`. -/
def Opt.Validate (o : Opt) : Except ConfigError Unit :=
  if !ValidateName o.Name then .error .errInvalidName
  else if !ValidateType o.type_ then .error .invalidType
  else match o.ValidateDefault with
    | .error e => .error e
    | .ok _ => if o.Help = "" then .error .missingHelp else .ok ()

/-- Model of the option modifier `Required`. -/
def RequiredOpt (o : Opt) : Opt := { o with Required := true }

/-- Model of the option modifier `Default(val)`. -/
def DefaultOpt (val : Value) (o : Opt) : Opt := { o with Default := some val }

/-- Model of the option modifier `Shortflag(s)`: note the Go code stores
`strings.ToUpper(string(s))`. -/
def ShortflagOpt (s : Char) (o : Opt) : Opt :=
  { o with Shortflag := stringsToUpper ⟨[s]⟩ }

/-! ## The Config node (`config.go` `Config`)

`Config` is recursive through `subcommands`, so it is an inductive with
explicit field accessors and functional updaters. Go's `currentSub *Config`
pointer into the `subcommands` map is modelled by the selected subcommand's
registry key. -/

inductive Config where
  | mk (app version : String)
       (spec : List (String × Opt))
       (values : List (String × Value))
       (locations : List (String × List String))
       (shortflags : List (String × String))
       (subcommands : List (String × Config))
       (currentSub : Option String)

def Config.app : Config → String
  | .mk a _ _ _ _ _ _ _ => a

def Config.version : Config → String
  | .mk _ v _ _ _ _ _ _ => v

def Config.spec : Config → List (String × Opt)
  | .mk _ _ s _ _ _ _ _ => s

def Config.values : Config → List (String × Value)
  | .mk _ _ _ v _ _ _ _ => v

def Config.locations : Config → List (String × List String)
  | .mk _ _ _ _ l _ _ _ => l

def Config.shortflags : Config → List (String × String)
  | .mk _ _ _ _ _ s _ _ => s

def Config.subcommands : Config → List (String × Config)
  | .mk _ _ _ _ _ _ s _ => s

def Config.currentSub : Config → Option String
  | .mk _ _ _ _ _ _ _ c => c

def Config.withApp : Config → String → Config
  | .mk _ v sp va lo sf su cu, a => .mk a v sp va lo sf su cu

def Config.withValues : Config → List (String × Value) → Config
  | .mk a v sp _ lo sf su cu, va => .mk a v sp va lo sf su cu

def Config.withLocations : Config → List (String × List String) → Config
  | .mk a v sp va _ sf su cu, lo => .mk a v sp va lo sf su cu

def Config.withSpec : Config → List (String × Opt) → Config
  | .mk a v _ va lo sf su cu, sp => .mk a v sp va lo sf su cu

def Config.withShortflags : Config → List (String × String) → Config
  | .mk a v sp va lo _ su cu, sf => .mk a v sp va lo sf su cu

def Config.withSubcommands : Config → List (String × Config) → Config
  | .mk a v sp va lo sf _ cu, su => .mk a v sp va lo sf su cu

def Config.withCurrentSub : Config → Option String → Config
  | .mk a v sp va lo sf su _, cu => .mk a v sp va lo sf su cu

/-! ## Go map operations on association lists -/

/-- Go map read `m[k]` (with the hit flag via `Option`). -/
def alookup {α : Type} (m : List (String × α)) (k : String) : Option α :=
  match m with
  | [] => none
  | (k', v) :: rest => if k' = k then some v else alookup rest k

/-- Go map write `m[k] = v`: replace in place or append. -/
def ainsert {α : Type} (m : List (String × α)) (k : String) (v : α) : List (String × α) :=
  match m with
  | [] => [(k, v)]
  | (k', v') :: rest => if k' = k then (k, v) :: rest else (k', v') :: ainsert rest k v

/-! ## Core Config operations -/

/-- Model of `Config.Reset`: clears `values`, `locations` and `currentSub`. -/
def Config.Reset (c : Config) : Config :=
  ((c.withValues []).withLocations []).withCurrentSub none

/-- Model of `Config.isSub`: the app name contains an underscore. -/
def Config.isSub (c : Config) : Bool :=
  !(stringsIndexChar c.app '_' = none)

/-- Model of `Config.appName`: for a subcommand, the app name up to the
first underscore (the parent's name); otherwise the app name. -/
def Config.appName (c : Config) : String :=
  if c.isSub then ⟨c.app.data.takeWhile (fun ch => ch ≠ '_')⟩ else c.app

/-- Model of `Config.subName`: for a subcommand, the app name after the
first underscore; otherwise the empty string. -/
def Config.subName (c : Config) : String :=
  if c.isSub then ⟨(c.app.data.dropWhile (fun ch => ch ≠ '_')).drop 1⟩ else ""

/-- Model of `New`: validates the app name and version, then builds a node
with empty registries. -/
def New (app version : String) : Except ConfigError Config :=
  if !ValidateName app then .error (.invalidAppName app)
  else if !ValidateVersion version then .error .invalidVersion
  else .ok ((Config.mk app version [] [] [] [] [] none).Reset)

/-- Model of `Config.addOption` (the panicking variant in `options.go` goes
through `mkOption` below; `config.go`'s method returns the error). -/
def Config.addOption (c : Config) (opt : Opt) : Except ConfigError Config :=
  if !ValidateName opt.Name then .error (.invalidOptionName opt.Name)
  else if (alookup c.spec opt.Name).isSome then .error (.doubleOption opt.Name)
  else
    let c := c.withSpec (ainsert c.spec opt.Name opt)
    if opt.Shortflag ≠ "" then
      if (alookup c.shortflags opt.Shortflag).isSome then .error (.doubleShortflag opt.Shortflag)
      else .ok (c.withShortflags (ainsert c.shortflags opt.Shortflag opt.Name))
    else .ok c

/-- Model of `Config.mkOption`: upper-cases the name, applies the setters,
validates the spec as a whole and registers it. Go panics on a validation
error; the panic is modelled as `Except.error`. -/
def Config.mkOption (c : Config) (name type_ helpText : String) (setter : List (Opt → Opt)) :
    Except ConfigError (Config × Opt) :=
  let o : Opt :=
    { Name := stringsToUpper name, Required := false, type_ := type_,
      Help := helpText, Default := none, Shortflag := "" }
  let o := setter.foldl (fun o s => s o) o
  match o.Validate with
  | .error e => .error e
  | .ok _ =>
    match c.addOption o with
    | .error e => .error e
    | .ok c' => .ok (c', o)

/-- Model of `Config.NewInt32` (the getter wrapper is elided; registration
effect and spec are returned). -/
def Config.NewInt32 (c : Config) (name helpText : String) (setter : List (Opt → Opt)) :
    Except ConfigError (Config × Opt) :=
  c.mkOption name "int32" helpText setter

/-- Model of `Config.NewBool`. -/
def Config.NewBool (c : Config) (name helpText : String) (setter : List (Opt → Opt)) :
    Except ConfigError (Config × Opt) :=
  c.mkOption name "bool" helpText setter

/-- Model of `Config.Sub`: a subcommand node shares the version, its app
identity is `parent_child`, and it is registered under the given name in
the parent. The child is returned inside the updated parent (Go returns a
pointer into the parent's `subcommands` map). -/
def Config.Sub (c : Config) (name : String) : Except ConfigError Config :=
  if c.isSub then .error .subSubCommand
  else
    match New name c.version with
    | .error e => .error e
    | .ok s =>
      let s := s.withApp (c.app ++ "_" ++ s.app)
      .ok (c.withSubcommands (ainsert c.subcommands name s))

/-- Model of `Config.set`: validate the key, look up its spec, coerce the
raw value, store it and append the location. All error exits precede the
mutations, exactly as in the source. -/
def Config.set (c : Config) (key val location : String) : Except ConfigError Config :=
  if !ValidateName key then .error (.invalidName key)
  else
    match alookup c.spec key with
    | none => .error (.unknownOption c.version key)
    | some sp =>
      match stringToValue sp.type_ val with
      | none => .error (.invalidValue key val)
      | some out =>
        .ok ((c.withValues (ainsert c.values key out)).withLocations
          (ainsert c.locations key ((alookup c.locations key).getD [] ++ [location])))

/-- The state a Go caller of `set` observes afterwards: the updated node on
success, the unchanged node on error (Go returns before any mutation). -/
def Config.setApplied (c : Config) (key val location : String) : Config × Option ConfigError :=
  match c.set key val location with
  | .ok c' => (c', none)
  | .error e => (c, some e)

/-! ## Read accessors

Each accessor panics (`Except.error`) on a key that fails the name grammar,
exactly as the source does; reading an unset key returns the type's zero
value. A stored value of the wrong dynamic type would make Go's type
assertion panic, modelled as `.runtimePanic`. -/

/-- Model of `Config.IsSet`. -/
def Config.IsSet (c : Config) (option : String) : Except ConfigError Bool :=
  if !ValidateName option then .error (.invalidName option)
  else .ok (alookup c.values option).isSome

/-- Model of `Config.Locations`. -/
def Config.Locations (c : Config) (option : String) : Except ConfigError (List String) :=
  if !ValidateName option then .error (.invalidName option)
  else .ok ((alookup c.locations option).getD [])

/-- Model of `Config.GetBool`. -/
def Config.GetBool (c : Config) (option : String) : Except ConfigError Bool :=
  if !ValidateName option then .error (.invalidName option)
  else
    match alookup c.values option with
    | some (.bool b) => .ok b
    | some _ => .error (.runtimePanic "type assertion")
    | none => .ok false

/-- Model of `Config.GetInt32`. -/
def Config.GetInt32 (c : Config) (option : String) : Except ConfigError Int :=
  if !ValidateName option then .error (.invalidName option)
  else
    match alookup c.values option with
    | some (.int32 i) => .ok i
    | some _ => .error (.runtimePanic "type assertion")
    | none => .ok 0

/-- Model of `Config.GetFloat32` (float payloads are carried as source
text; the unset zero value prints as `0`). -/
def Config.GetFloat32 (c : Config) (option : String) : Except ConfigError String :=
  if !ValidateName option then .error (.invalidName option)
  else
    match alookup c.values option with
    | some (.float32 raw) => .ok raw
    | some _ => .error (.runtimePanic "type assertion")
    | none => .ok "0"

/-- Model of `Config.GetString`. -/
def Config.GetString (c : Config) (option : String) : Except ConfigError String :=
  if !ValidateName option then .error (.invalidName option)
  else
    match alookup c.values option with
    | some (.str s) => .ok s
    | some _ => .error (.runtimePanic "type assertion")
    | none => .ok ""

/-- Model of `Config.GetTime` (`*time.Time`: `none` for unset). -/
def Config.GetTime (c : Config) (option : String) : Except ConfigError (Option String) :=
  if !ValidateName option then .error (.invalidName option)
  else
    match alookup c.values option with
    | some (.time raw) => .ok (some raw)
    | some _ => .error (.runtimePanic "type assertion")
    | none => .ok none

/-- Model of `Config.GetJSON`: returns the stored raw JSON text that Go
would unmarshal into the caller's value (`none` when unset: Go returns
`nil` without touching the target). -/
def Config.GetJSON (c : Config) (option : String) : Except ConfigError (Option String) :=
  if !ValidateName option then .error (.invalidName option)
  else
    match alookup c.values option with
    | some (.str s) => .ok (some s)
    | some _ => .error (.runtimePanic "type assertion")
    | none => .ok none

/-- Model of `Config.CurrentSub` (the selected subcommand's registry key;
`none` when no subcommand is active). -/
def Config.CurrentSub (c : Config) : Option String := c.currentSub

/-! ## Validation passes and defaults -/

/-- Helper for `Config.ValidateValues`: first error over the values list. -/
def validateValuesAux (version : String) (spec : List (String × Opt)) :
    List (String × Value) → Option ConfigError
  | [] => none
  | (k, v) :: rest =>
    match alookup spec k with
    | none => some (.unknownOption version k)
    | some sp =>
      match sp.ValidateValue (some v) with
      | .error e => some (.invalidConfig version e)
      | .ok _ => validateValuesAux version spec rest

/-- Model of `Config.ValidateValues`: every set value's key must exist in
the spec and its value must type-check; stops on the first error. (The
source skips `nil` values; the value model cannot hold `nil`, which no
reachable state stores.) -/
def Config.ValidateValues (c : Config) : Option ConfigError :=
  validateValuesAux c.version c.spec c.values

/-- Helper for `Config.CheckMissing`: first missing required option. -/
def checkMissingAux (version : String) (values : List (String × Value)) :
    List (String × Opt) → Option ConfigError
  | [] => none
  | (k, sp) :: rest =>
    if sp.Required && sp.Default = none && (alookup values k).isNone then
      some (.missingOption version k)
    else checkMissingAux version values rest

/-- Model of `Config.CheckMissing`. -/
def Config.CheckMissing (c : Config) : Option ConfigError :=
  checkMissingAux c.version c.values c.spec

/-- Model of `Config.LoadDefaults`: every spec with a non-nil default is
written into `values`, with the default's printed form appended to its
locations. -/
def Config.LoadDefaults (c : Config) : Config :=
  c.spec.foldl
    (fun acc kv =>
      match kv.2.Default with
      | none => acc
      | some d =>
        (acc.withValues (ainsert acc.values kv.1 d)).withLocations
          (ainsert acc.locations kv.1 ((alookup acc.locations kv.1).getD [] ++ [goSprintV d])))
    c

/-! ## Config file paths (`env.go` globals as explicit parameters) -/

/-- The process-wide directory variables from `env.go`, passed explicitly. -/
structure Dirs where
  USER_DIR : String
  GLOBAL_DIRS : String
  WORKING_DIR : String
deriving Repr, DecidableEq

/-- `CONFIG_EXT` as initialized for Unix platforms. -/
def CONFIG_EXT : String := ".conf"

/-- Model of `Config.globalsFile`. -/
def Config.globalsFile (c : Config) (dir : String) : String :=
  filepathJoin [dir, c.appName, c.appName ++ CONFIG_EXT]

/-- Model of `Config.FirstGlobalsFile`. -/
def Config.FirstGlobalsFile (c : Config) (d : Dirs) : String :=
  c.globalsFile ((stringsSplit d.GLOBAL_DIRS ':').headD "")

/-- Model of `Config.UserFile`. -/
def Config.UserFile (c : Config) (d : Dirs) : String :=
  filepathJoin [d.USER_DIR, c.appName, c.appName ++ CONFIG_EXT]

/-- Model of `Config.LocalFile`. -/
def Config.LocalFile (c : Config) (d : Dirs) : String :=
  filepathJoin [d.WORKING_DIR, ".config", c.appName, c.appName ++ CONFIG_EXT]

/-- The environment-variable key head `MergeEnv` scans for:
`strings.ToUpper(c.app) + "_CONFIG_"`. -/
def Config.envConfigHead (c : Config) : String :=
  stringsToUpper c.app ++ "_CONFIG_"

/-! ## Textual codec: serialization (`writeConfigValues` / `WriteConfigFile`)

The model returns the text Go would write (file-system effects and I/O
errors elided; the logic errors are kept). -/

/-- `Modelled from the spec:` the `DateFormat`/`TimeFormat`/`DateTimeFormat`
output layouts live in the repository's helper file that is not among the
sources; per the spec, datetime uses a single fixed timestamp format, and
since timestamps are carried here as their source text the formatters
return that text. -/
def formatTimeValue (raw : String) : String := raw

/-- One serialized value entry: the commented help block, `$key=` and the
value's text, or the `InvalidTypeError` the source raises for a `time.Time`
value under a non-date/time/datetime type (output written so far is kept,
as the Go code has already written it when it errors). -/
def writeValueEntries (isS : Bool) (subNm : String) (spec : List (String × Opt)) :
    List (String × Value) → String × Option ConfigError
  | [] => ("", none)
  | (k, v) :: rest =>
    match alookup spec k with
    | none => ("", some (.runtimePanic "nil spec entry"))
    | some sp =>
      let helplines := (stringsSplit sp.Help '\n').map stringsTrimSpace
      let writeKey := if isS then subNm ++ "_" ++ k else k
      let headText := "\n# --- " ++ writeKey ++ " (" ++ sp.type_ ++ ") ---\n#     " ++
        stringsJoin helplines "\n#     " ++ "\n" ++ "$" ++ writeKey ++ "="
      let valText : Except ConfigError String :=
        match v with
        | .bool b => .ok (goSprintV (.bool b))
        | .int32 i => .ok (goSprintV (.int32 i))
        | .float32 raw => .ok raw
        | .str s =>
          .ok ((if strLen s > 15 || stringsContainsChar s '\n' then "\n" else "") ++ s)
        | .time raw =>
          if sp.type_ = "date" || sp.type_ = "time" || sp.type_ = "datetime" then
            .ok (" " ++ formatTimeValue raw)
          else .error (.invalidTypeFor k sp.type_)
      match valText with
      | .error e => (headText, some e)
      | .ok vt =>
        match writeValueEntries isS subNm spec rest with
        | (out, err) => (headText ++ vt ++ out, err)

mutual

/-- Model of `Config.writeConfigValues`: the node's own non-nil values,
then each subcommand's block under a `SUBCOMMAND` banner. A subcommand's
error is discarded by the source (the recursive call's result is ignored);
only its produced text is kept. -/
def Config.writeConfigValues : Config → String × Option ConfigError
  | .mk a v sp va lo sf su cu =>
    let c := Config.mk a v sp va lo sf su cu
    match writeValueEntries c.isSub c.subName sp va with
    | (out, some e) => (out, some e)
    | (out, none) => (out ++ writeSubBlocks su, none)

/-- The serialized subcommand blocks. -/
def writeSubBlocks : List (String × Config) → String
  | [] => ""
  | (_, sub) :: rest =>
    "\n# ------------ SUBCOMMAND " ++ sub.subName ++ " ------------\n#" ++
      (Config.writeConfigValues sub).1 ++ writeSubBlocks rest

end

/-- The fixed header line and format-description preamble `WriteConfigFile`
writes before the values (after the header line, every preamble line starts
with `#`). -/
def configFilePreamble (app version : String) : String :=
  app ++ " " ++ version ++
  "\n# Don\x27t delete the first line!" ++
  "\n#" ++
  "\n# This is a configuration file for the command " ++ app ++ " of the version " ++ version ++ " and compatible versions." ++
  "\n# All available options can be found by running" ++
  "\n#" ++
  "\n#           " ++ app ++ " --help-all" ++
  "\n#" ++
  "\n# ------------ FILE FORMAT ------------" ++
  "\n#" ++
  "\n# 1. all lines end in Unix format (LF)" ++
  "\n# 2. the first line must be \x27xxxx yyy\x27 where \x27xxxx\x27 is the command name and \x27yyy\x27 is the command version" ++
  "\n# 3. a line starting with \x27#\x27 is a comment" ++
  "\n# 4. a line starting with \x27$\x27 is an option key and must have the format" ++
  "\n#    \x27$xxxx=yyy\x27 where \x27xxxx\x27 is the option name " ++
  "\n#    and \x27yyy\x27 is the value. The \x27=\x27 may be surrounded by whitespace and the value \x27yyy\x27" ++
  "\n#    may begin after a linefeed" ++
  "\n# 5. the option name is like the corresponding arg without any prefixing \x27-\x27" ++
  "\n#    and subcommand options are prefixed with the name of the" ++
  "\n#    subcommand followed by an underscore \x27_\x27" ++
  "\n# 6. Every line that does not begin with \x27#\x27 or \x27$\x27 is part of the value of the previous option key." ++
  "\n#" ++
  "\n# ------------ EXAMPLE ------------" ++
  "\n#" ++
  "\n#           git 2.1" ++
  "\n#           # a value in the same line as the option" ++
  "\n#           $commit_all=true" ++
  "\n#           # a multiline value starting in the line after the option" ++
  "\n#           $commit_message=" ++
  "\n#           a commit message that spans" ++
  "\n#           # comments are ignored" ++
  "\n#           several lines" ++
  "\n#           # a value in the same line as the option, = surrounded by whitespace" ++
  "\n#           $commit_cleanup = verbatim" ++
  "\n#" ++
  "\n# The above configuration corresponds to the following command invokation (in bash):" ++
  "\n#" ++
  "\n#           git commit --all --cleanup=verbatim --message=$\x27a commit message that spans\\nseveral lines\x27" ++
  "\n#" ++
  "\n# ------------ CONFIGURATION ------------" ++
  "\n#"

/-- Model of `Config.WriteConfigFile`: the text the call writes to the
target file. `.ok none` models the no-values case, where an existing file
is deleted and nothing is written; on a serialization error the original
file is restored and the error returned. -/
def Config.WriteConfigFile (c : Config) : Except ConfigError (Option String) :=
  if c.isSub then .error (.message "WriteConfigFile must not be called in sub command")
  else
    match c.ValidateValues with
    | some e => .error e
    | none =>
      if c.values.isEmpty then .ok none
      else
        match c.writeConfigValues with
        | (body, none) => .ok (some (configFilePreamble c.app c.version ++ body))
        | (_, some e) => .error e

/-! ## Textual codec: parsing (`Config.Merge`) -/

/-- The parser state threaded through `Merge`'s line loop: the node being
filled, the keys already seen in this file, the value accumulator and the
pending key (with its subcommand part, if any). -/
structure MergeSt where
  cfg : Config
  keysSeen : List String
  valBuf : String
  key : String
  subcommand : String

/-- Model of `Merge`'s `setValue` closure. The accumulated value is
trimmed; an empty value is an error. For a top-level key the result of
`set` is computed and then discarded unchecked by the source (the `err`
variable is only examined in the subcommand branch), so a failing top-level
`set` is silently ignored. A subcommand key requires a registered child;
its `set` error is wrapped, naming both versions when they differ. -/
def mergeSetValue (location fileVersion : String) (differentVersions : Bool)
    (st : MergeSt) : Except ConfigError MergeSt :=
  let val := stringsTrimSpace st.valBuf
  if val = "" then
    let key := if st.subcommand ≠ "" then st.subcommand ++ "_" ++ st.key else st.key
    .error (.emptyValue key)
  else if st.subcommand = "" then
    match st.cfg.set st.key val location with
    | .ok c' => .ok { st with cfg := c' }
    | .error _ => .ok st
  else
    match alookup st.cfg.subcommands st.subcommand with
    | none => .error (.message ("unknown subcommand " ++ st.subcommand))
    | some sub =>
      match sub.set st.key val location with
      | .ok sub' =>
        .ok { st with cfg := st.cfg.withSubcommands (ainsert st.cfg.subcommands st.subcommand sub') }
      | .error e =>
        if differentVersions then
          .error (.invalidConfigFile location st.cfg.version
            (.versionSkew val st.key fileVersion st.cfg.version))
        else .error (.invalidConfigFile location st.cfg.version e)

/-- Model of `Merge`'s scan loop over the lines after the header. -/
def mergeLines (location fileVersion : String) (differentVersions : Bool) :
    List String → MergeSt → Config × Option ConfigError
  | [], st =>
    if st.key ≠ "" then
      match mergeSetValue location fileVersion differentVersions st with
      | .ok st' => (st'.cfg, none)
      | .error _ => (st.cfg, none)
    else (st.cfg, none)
  | line :: rest, st =>
    if strLen line = 0 then mergeLines location fileVersion differentVersions rest st
    else if strSlice line 0 1 = "#" then mergeLines location fileVersion differentVersions rest st
    else if strSlice line 0 1 = "$" then
      let step1 : Except ConfigError MergeSt :=
        if st.key ≠ "" then mergeSetValue location fileVersion differentVersions st
        else .ok st
      match step1 with
      | .error e => (st.cfg, some e)
      | .ok st1 =>
        match stringsIndexChar line '=' with
        | none =>
          (st1.cfg, some (.invalidConfigFile location st1.cfg.version
            (.message ("missing = in " ++ line))))
        | some idx =>
          let key0 := stringsTrimRightSpace (strSlice line 1 idx)
          if st1.keysSeen.contains key0 then (st1.cfg, some (.doubleOption key0))
          else
            let keysSeen := st1.keysSeen ++ [key0]
            let sk : String × String :=
              match stringsIndexChar key0 '_' with
              | some p => if p > 0 then (strSlice key0 0 p, strFrom key0 (p + 1)) else ("", key0)
              | none => ("", key0)
            let subcmd := sk.1
            let key1 := sk.2
            if !ValidateName key1 then (st1.cfg, some .errInvalidName)
            else if subcmd ≠ "" && !ValidateName subcmd then (st1.cfg, some .errInvalidName)
            else
              let valBuf := if idx < strLen line - 2 then strFrom line (idx + 1) else ""
              mergeLines location fileVersion differentVersions rest
                { cfg := st1.cfg, keysSeen := keysSeen, valBuf := valBuf,
                  key := key1, subcommand := subcmd }
    else
      mergeLines location fileVersion differentVersions rest
        { st with valBuf := st.valBuf ++ "\n" ++ line }

/-- Model of `Config.Merge`: parse the header (exact app name required,
version mismatch tolerated but remembered), then run the line loop. The
final pending key's `setValue` error is discarded by the source. -/
def Config.Merge (c : Config) (text location : String) : Config × Option ConfigError :=
  match goScanLines text with
  | [] =>
    (c, some (.invalidConfigFile location c.version
      (.message "can't read config header (app and version)")))
  | header :: rest =>
    let words := stringsSplit header ' '
    if words.length ≠ 2 then
      (c, some (.invalidConfigFile location c.version (.message "invalid config header")))
    else
      let w0 := words.headD ""
      let w1 := (words.drop 1).headD ""
      if w0 ≠ c.appName then
        (c, some (.invalidConfigFile location c.version (.headerAppMismatch c.appName w0)))
      else
        mergeLines location w1 (w1 ≠ c.version) rest
          { cfg := c, keysSeen := [], valBuf := "", key := "", subcommand := "" }

/-! ## Environment merging (`Config.MergeEnv`) -/

/-- The loop body of `MergeEnv` over the environment snapshot. -/
def mergeEnvAux (keyHead : String) : List String → Config → Config × Option ConfigError
  | [], c => (c, none)
  | pair :: rest, c =>
    if stringsStartsWith pair keyHead then
      let startKey := strLen keyHead
      if startKey > 0 then
        match stringsIndexChar pair '=' with
        | none => (c, some (.runtimePanic "slice bounds"))
        | some startVal =>
          let key := strSlice pair startKey startVal
          let val := stringsTrimSpace (strFrom pair (startVal + 1))
          if val = "" then (c, some (.emptyValue key))
          else
            match c.set (stringsToLower key) val (strSlice pair 0 startVal) with
            | .error e => (c, some (.invalidConfigEnv c.version (strSlice pair 0 startVal) e))
            | .ok c' => mergeEnvAux keyHead rest c'
      else mergeEnvAux keyHead rest c
    else mergeEnvAux keyHead rest c

/-- Model of `Config.MergeEnv`: scan the environment snapshot for entries
prefixed `<UPPER-APP>_CONFIG_`, lower-case the remaining key and `set` it
(the location is the variable name up to `=`). Note the source really does
call `strings.ToLower` on the key before `set`. -/
def Config.MergeEnv (c : Config) (env : List String) : Config × Option ConfigError :=
  mergeEnvAux c.envConfigHead env c

/-! ## Argument merging (`Config.mergeArgs`) -/

/-- Result of `mergeArgs`: either one of the reserved print-and-stop exits,
or the final node, the set of argument keys merged, and the returned
error. -/
inductive ArgsResult where
  | exit (action : String)
  | done (cfg : Config) (merged : List String) (err : Option ConfigError)

def ArgsResult.err : ArgsResult → Option ConfigError
  | .exit _ => none
  | .done _ _ e => e

def ArgsResult.mergedKeys : ArgsResult → List String
  | .exit _ => []
  | .done _ m _ => m

def ArgsResult.cfgOr (dflt : Config) : ArgsResult → Config
  | .exit _ => dflt
  | .done c _ _ => c

/-- The loop of `mergeArgs` over the argument list, followed by
`ValidateValues` and `CheckMissing`. -/
def mergeArgsAux (helpIntro : String) (ignoreUnknown : Bool) :
    List String → Config → List String → List String → ArgsResult
  | [], c, merged, _keys =>
    match c.ValidateValues with
    | some e => .done c merged (some e)
    | none => .done c merged c.CheckMissing
  | pair :: rest, c, merged, keys =>
    let kv : Except ConfigError (String × String) :=
      match stringsIndexChar pair '=' with
      | some i =>
        if !(i < strLen pair - 1) then
          .error (.invalidConfigFlag c.version pair
            (.message ("invalid argument syntax at " ++ pair)))
        else
          let key := strSlice pair 0 i
          let val := strFrom pair (i + 1)
          if val = "" then .error (.emptyValue key)
          else .ok (key, val)
      | none => .ok (pair, "true")
    match kv with
    | .error e => .done c merged (some e)
    | .ok (argKey, val) =>
      let key := argToKey argKey
      if key = "config-spec" then .exit "config-spec"
      else if key = "config-locations" then .exit "config-locations"
      else if key = "config-files" then .exit "config-files"
      else if key = "version" then .exit "version"
      else if key = "help" then .exit "help"
      else
        let key :=
          match alookup c.shortflags key with
          | some sh => sh
          | none => key
        if keys.contains key then .done c merged (some (.doubleOption key))
        else
          let has := (alookup c.spec key).isSome
          if ignoreUnknown && !has then mergeArgsAux helpIntro ignoreUnknown rest c merged keys
          else
            match c.set key val argKey with
            | .error e =>
              .done c merged (some (.invalidConfigFlag c.version pair
                (.invalidValueForOption key e)))
            | .ok c' =>
              mergeArgsAux helpIntro ignoreUnknown rest c' (merged ++ [argKey]) (keys ++ [key])

/-- Model of `Config.mergeArgs`. (The reserved-key cases compare the
upper-cased, underscore-mapped key against the lower-case hyphenated
literals, exactly as the source does.) -/
def Config.mergeArgs (c : Config) (helpIntro : String) (ignoreUnknown : Bool)
    (args : List String) : ArgsResult :=
  mergeArgsAux helpIntro ignoreUnknown args c [] []

/-- Model of `Config.MergeArgs` (argument list passed explicitly instead of
the process-global `ARGS`). -/
def Config.MergeArgs (c : Config) (helpIntro : String) (args : List String) : ArgsResult :=
  c.mergeArgs helpIntro false args

/-! ## The load pipeline (`Config.Load`) -/

/-- Model of `Config.LoadFile`: the file system is an explicit partial map
from paths to file text. An unreadable/missing file is not an error; a
failing merge is wrapped. -/
def Config.LoadFile (c : Config) (fs : String → Option String) (path : String) :
    (Config × Option ConfigError) × Bool :=
  match fs path with
  | none => ((c, none), false)
  | some text =>
    match c.Merge text path with
    | (c', none) => ((c', none), true)
    | (c', some e) => ((c', some (.cantMergeFile path e)), true)

/-- The loop of `LoadGlobals` over the colon-separated global dirs. -/
def loadGlobalsAux (fs : String → Option String) :
    List String → Config → Config × Option ConfigError
  | [], c => (c, none)
  | dir :: rest, c =>
    match c.LoadFile fs (filepathJoin [dir, c.appName, c.appName ++ CONFIG_EXT]) with
    | (res, true) => res
    | (_, false) => loadGlobalsAux fs rest c

/-- Model of `Config.LoadGlobals`. -/
def Config.LoadGlobals (c : Config) (d : Dirs) (fs : String → Option String) :
    Config × Option ConfigError :=
  loadGlobalsAux fs (stringsSplit d.GLOBAL_DIRS ':') c

/-- Model of `Config.LoadUser`. -/
def Config.LoadUser (c : Config) (d : Dirs) (fs : String → Option String) :
    Config × Option ConfigError :=
  match c.LoadFile fs (c.UserFile d) with
  | (res, true) => res
  | (_, false) => (c, none)

/-- Model of `Config.LoadLocals`. -/
def Config.LoadLocals (c : Config) (d : Dirs) (fs : String → Option String) :
    Config × Option ConfigError :=
  match c.LoadFile fs (c.LocalFile d) with
  | (res, true) => res
  | (_, false) => (c, none)

/-- Result of `Config.Load`: a reserved-key exit or the final node state
with the returned error. -/
inductive LoadResult where
  | exit (action : String)
  | done (cfg : Config) (err : Option ConfigError)

def LoadResult.err : LoadResult → Option ConfigError
  | .exit _ => none
  | .done _ e => e

def LoadResult.cfgOr (dflt : Config) : LoadResult → Config
  | .exit _ => dflt
  | .done c _ => c

/-- The final unknown-argument check of the subcommand branch of `Load`. -/
def checkUnknownArgs (version : String) (m1 m2 : List String) :
    List String → Option ConfigError
  | [] => none
  | arg :: rest =>
    let key :=
      match stringsIndexChar arg '=' with
      | some i => strSlice arg 0 i
      | none => arg
    if !m1.contains key && !m2.contains key then some (.unknownOption version arg)
    else checkUnknownArgs version m1 m2 rest

/-- The subcommand branch of `Load`: the child becomes `currentSub`, its
environment is merged, the remaining arguments are merged into parent and
child with unknown keys ignored, and an argument recognized by neither is
an unknown-option error. -/
def loadSubBranch (c sub : Config) (subKey : String) (restArgs env : List String)
    (helpIntro : String) : LoadResult :=
  let c := c.withCurrentSub (some subKey)
  match sub.MergeEnv env with
  | (sub, some e) => .done (c.withSubcommands (ainsert c.subcommands subKey sub)) (some e)
  | (sub, none) =>
    let c := c.withSubcommands (ainsert c.subcommands subKey sub)
    match c.mergeArgs helpIntro true restArgs with
    | .exit a => .exit a
    | .done c1 _ (some e1) => .done c1 (some e1)
    | .done c1 merged1 none =>
      match ((alookup c1.subcommands subKey).getD sub).mergeArgs helpIntro true restArgs with
      | .exit a => .exit a
      | .done sub2 _ (some e2) =>
        .done (c1.withSubcommands (ainsert c1.subcommands subKey sub2)) (some e2)
      | .done sub2 merged2 none =>
        let c2 := c1.withSubcommands (ainsert c1.subcommands subKey sub2)
        match checkUnknownArgs c2.version merged1 merged2 restArgs with
        | some e => .done c2 (some e)
        | none => .done c2 none

/-- The tail of `Load` when no subcommand is selected. -/
def loadArgsTail (c : Config) (args : List String) (helpIntro : String) : LoadResult :=
  match c.MergeArgs helpIntro args with
  | .exit a => .exit a
  | .done c' _ err => .done c' err

/-- Model of `Config.Load`: reset, defaults, global file, user file, local
file, environment, then either subcommand dispatch (looked up under
`strings.ToLower(args[0])`) or plain argument merging. -/
def Config.Load (c : Config) (d : Dirs) (fs : String → Option String)
    (env args : List String) (helpIntro : String) : LoadResult :=
  let c := c.Reset
  let c := c.LoadDefaults
  match c.LoadGlobals d fs with
  | (c, some e) => .done c (some e)
  | (c, none) =>
    match c.LoadUser d fs with
    | (c, some e) => .done c (some e)
    | (c, none) =>
      match c.LoadLocals d fs with
      | (c, some e) => .done c (some e)
      | (c, none) =>
        match c.MergeEnv env with
        | (c, some e) => .done c (some e)
        | (c, none) =>
          match args with
          | arg0 :: restArgs =>
            match alookup c.subcommands (stringsToLower arg0) with
            | some sub => loadSubBranch c sub (stringsToLower arg0) restArgs env helpIntro
            | none => loadArgsTail c args helpIntro
          | [] => loadArgsTail c args helpIntro

/-! ## Concrete instances used by the claim theorems -/

/-- The error of an `Except` result, if any. -/
def exceptErr {α : Type} : Except ConfigError α → Option ConfigError
  | .error e => some e
  | .ok _ => none

/-- An optional `int32` option `PORT`. -/
def c1portOpt : Opt :=
  { Name := "PORT", Required := false, type_ := "int32", Help := "the port",
    Default := none, Shortflag := "" }

/-- App `DEMO` version `1.0.0` with `PORT` registered and nothing set. -/
def c1demoBase : Config := .mk "DEMO" "1.0.0" [("PORT", c1portOpt)] [] [] [] [] none

/-- The same node with `PORT` set to `5` (printed form has one character). -/
def c1demoWith5 : Config :=
  (c1demoBase.withValues [("PORT", .int32 5)]).withLocations [("PORT", ["src"])]

/-- The text `WriteConfigFile` produces for `c1demoWith5`. -/
def c1fileText : Option String :=
  match Config.WriteConfigFile c1demoWith5 with
  | .ok t => t
  | .error _ => none

/-- Re-parsing that text into a fresh node with the same app, version and
specs. -/
def c1reparsed : Config × Option ConfigError :=
  match c1fileText with
  | some t => c1demoBase.Merge t "file"
  | none => (c1demoBase, some (.message "no text produced"))

/-- An `int32` option `PORT` with default `3000`. -/
def c2portOpt : Opt :=
  { Name := "PORT", Required := false, type_ := "int32", Help := "the port",
    Default := some (.int32 3000), Shortflag := "" }

/-- App `DEMO` with defaulted `PORT` registered. -/
def c2demo : Config := .mk "DEMO" "1.0.0" [("PORT", c2portOpt)] [] [] [] [] none

/-- After `LoadDefaults`. -/
def c2afterDefaults : Config := c2demo.LoadDefaults

/-- The environment snapshot carrying `DEMO_CONFIG_PORT=8080`. -/
def c2env : List String := ["DEMO_CONFIG_PORT=8080"]

/-- After `MergeEnv` on that snapshot. -/
def c2res : Config × Option ConfigError := c2afterDefaults.MergeEnv c2env

/-- App `PARENT` version `1.0`, no options. -/
def c3parent : Config := .mk "PARENT" "1.0" [] [] [] [] [] none

/-- The parent with subcommand `SUB` registered via `Sub`. -/
def c3parentWithSub : Config :=
  match c3parent.Sub "SUB" with
  | .ok p => p
  | .error _ => c3parent

/-- `Load` with no files, no environment, and the subcommand's exact
registered name as the first argument. -/
def c3res : LoadResult :=
  c3parentWithSub.Load ⟨"", "", ""⟩ (fun _ => none) [] ["SUB"] ""

/-- The same load with the lower-case spelling of the name. -/
def c3resLower : LoadResult :=
  c3parentWithSub.Load ⟨"", "", ""⟩ (fun _ => none) [] ["sub"] ""

/-- The required `int32` option `PORT` with shortflag `P` (the stored form
of `Shortflag('p')`), as the claim's registration would produce it. -/
def c4portReqOpt : Opt :=
  { Name := "PORT", Required := true, type_ := "int32", Help := "the port",
    Default := none, Shortflag := "P" }

/-- The claim's node built literally (its registration API rejects it). -/
def c4demo : Config :=
  .mk "DEMO" "1.0.0" [("PORT", c4portReqOpt)] [] [] [("P", "PORT")] [] none

/-- The claim's registration, attempted through the API with a valid
(upper-case) app name: `New` then `NewInt32` with `Required` and
`Shortflag('p')`. -/
def c4registrationTry : Option ConfigError :=
  match New "DEMO" "1.0.0" with
  | .error e => some e
  | .ok c => exceptErr (c.NewInt32 "PORT" "the port" [RequiredOpt, ShortflagOpt 'p'])

/-- Merging the argument `-p=8080` with no other sources. -/
def c4argsRes : ArgsResult := c4demo.mergeArgs "" false ["-p=8080"]

/-- The resulting node. -/
def c4loaded : Config := c4argsRes.cfgOr c4demo

/-- Merging an empty argument list (no `-p`). -/
def c4missingRes : ArgsResult := c4demo.mergeArgs "" false []

/-- A registered `bool` option `VERBOSE`. -/
def c5boolOpt : Opt :=
  { Name := "VERBOSE", Required := false, type_ := "bool", Help := "verbose",
    Default := none, Shortflag := "" }

/-- App `DEMO` with the `bool` option registered and nothing set. -/
def c5cfg : Config := .mk "DEMO" "1.0.0" [("VERBOSE", c5boolOpt)] [] [] [] [] none

/-- The spec's wording of the name grammar, as a second definition for the
comparison in claim C6: a non-empty sequence of words joined by `_`, each
word matching `[A-Z][A-Z0-9]+`. -/
def specValidName (s : String) : Prop :=
  ∃ ws : List String,
    ws ≠ [] ∧ (∀ w ∈ ws, wordRegexpMatch w = true) ∧ s = stringsJoin ws "_"

/-- App `PARENT` version `1.0`, no options (claim C8). -/
def c8parent : Config := .mk "PARENT" "1.0" [] [] [] [] [] none

/-- The parent with subcommand `SUB` registered via `Sub`. -/
def c8parentWithSub : Config :=
  match c8parent.Sub "SUB" with
  | .ok p => p
  | .error _ => c8parent

/-- The child node `Sub` created. -/
def c8child : Config := (alookup c8parentWithSub.subcommands "SUB").getD c8parent

/-- Concrete platform directories for claim C8. -/
def c8dirs : Dirs := ⟨"u", "g", "w"⟩

/-- Decidable equality for `Except` results (not provided by core). -/
instance exceptDecEq {ε α : Type} [DecidableEq ε] [DecidableEq α] :
    DecidableEq (Except ε α) := fun a b =>
  match a, b with
  | .error e, .error e' =>
    if h : e = e' then .isTrue (by rw [h])
    else .isFalse (fun hh => by cases hh; exact h rfl)
  | .ok v, .ok v' =>
    if h : v = v' then .isTrue (by rw [h])
    else .isFalse (fun hh => by cases hh; exact h rfl)
  | .error _, .ok _ => .isFalse (fun hh => by cases hh)
  | .ok _, .error _ => .isFalse (fun hh => by cases hh)

/-! ## Claim theorems -/

set_option maxRecDepth 10000

/-- Claim C9: `Reset` empties the values map, empties the locations map and
sets `currentSub` to `nil`, while leaving the spec, shortflags and
subcommands maps (and the identity fields) exactly as they were. -/
theorem c9_reset_clears_state_keeps_registries (c : Config) :
    (c.Reset).values = [] ∧ (c.Reset).locations = [] ∧ (c.Reset).currentSub = none ∧
    (c.Reset).spec = c.spec ∧ (c.Reset).shortflags = c.shortflags ∧
    (c.Reset).subcommands = c.subcommands ∧
    (c.Reset).app = c.app ∧ (c.Reset).version = c.version := by
  cases c
  exact ⟨rfl, rfl, rfl, rfl, rfl, rfl, rfl, rfl⟩

/-- Claim C10: for an option name failing the name grammar, all public read
accessors (`IsSet`, `Locations`, `GetBool`, `GetInt32`, `GetFloat32`,
`GetString`, `GetTime`, `GetJSON`) panic with the invalid-name error
instead of returning a zero value or an ordinary error value. -/
theorem c10_accessors_panic_on_invalid_name (c : Config) (opt : String)
    (h : ValidateName opt = false) :
    c.IsSet opt = .error (.invalidName opt) ∧
    c.Locations opt = .error (.invalidName opt) ∧
    c.GetBool opt = .error (.invalidName opt) ∧
    c.GetInt32 opt = .error (.invalidName opt) ∧
    c.GetFloat32 opt = .error (.invalidName opt) ∧
    c.GetString opt = .error (.invalidName opt) ∧
    c.GetTime opt = .error (.invalidName opt) ∧
    c.GetJSON opt = .error (.invalidName opt) := by
  refine ⟨?_, ?_, ?_, ?_, ?_, ?_, ?_, ?_⟩ <;>
    simp [Config.IsSet, Config.Locations, Config.GetBool, Config.GetInt32,
      Config.GetFloat32, Config.GetString, Config.GetTime, Config.GetJSON, h]

/-- Witness for C10 at the concrete invalid name `bad`. -/
theorem c10_accessors_panic_on_invalid_name_witness :
    c5cfg.IsSet "bad" = .error (.invalidName "bad") ∧
    c5cfg.Locations "bad" = .error (.invalidName "bad") ∧
    c5cfg.GetBool "bad" = .error (.invalidName "bad") ∧
    c5cfg.GetInt32 "bad" = .error (.invalidName "bad") ∧
    c5cfg.GetFloat32 "bad" = .error (.invalidName "bad") ∧
    c5cfg.GetString "bad" = .error (.invalidName "bad") ∧
    c5cfg.GetTime "bad" = .error (.invalidName "bad") ∧
    c5cfg.GetJSON "bad" = .error (.invalidName "bad") :=
  c10_accessors_panic_on_invalid_name c5cfg "bad" (by decide)

/-- Claim C5: for a registered bool-typed option and a raw string failing
bool coercion, `set` returns the invalid-value error carrying the key and
raw text, and the node is unchanged: no value entry is stored and the
locations are untouched. -/
theorem c5_set_bool_failure_state_unchanged (c : Config) (key raw location : String)
    (sp : Opt) (h1 : ValidateName key = true) (h2 : alookup c.spec key = some sp)
    (h3 : sp.type_ = "bool") (h4 : strconvParseBool raw = none) :
    c.set key raw location = .error (.invalidValue key raw) ∧
    c.setApplied key raw location = (c, some (.invalidValue key raw)) ∧
    (c.setApplied key raw location).1.values = c.values ∧
    (c.setApplied key raw location).1.locations = c.locations := by
  have hset : c.set key raw location = .error (.invalidValue key raw) := by
    simp [Config.set, h1, h2, stringToValue, h3, h4]
  refine ⟨hset, ?_, ?_, ?_⟩ <;> simp [Config.setApplied, hset]

/-- Witness for C5: the bool option `VERBOSE` set to `notabool`. -/
theorem c5_set_bool_failure_state_unchanged_witness :
    c5cfg.set "VERBOSE" "notabool" "x" = .error (.invalidValue "VERBOSE" "notabool") ∧
    c5cfg.setApplied "VERBOSE" "notabool" "x" =
      (c5cfg, some (.invalidValue "VERBOSE" "notabool")) ∧
    (c5cfg.setApplied "VERBOSE" "notabool" "x").1.values = c5cfg.values ∧
    (c5cfg.setApplied "VERBOSE" "notabool" "x").1.locations = c5cfg.locations :=
  c5_set_bool_failure_state_unchanged c5cfg "VERBOSE" "notabool" "x" c5boolOpt
    (by decide) (by decide) (by decide) (by decide)

/-- Counterexample to claim C7: `stringToValue("bool", "1")` succeeds even
though `"1"` is neither `"true"` nor `"false"`. -/
theorem c7_bool_accepts_one :
    stringToValue "bool" "1" = some (Value.bool true) ∧ "1" ≠ "true" ∧ "1" ≠ "false" := by
  decide

/-- Claim C7 as amended: bool coercion succeeds exactly on the eleven
strings Go's `strconv.ParseBool` accepts. -/
theorem c7_bool_coercion_exact (s : String) :
    (stringToValue "bool" s).isSome = true ↔
      s = "1" ∨ s = "t" ∨ s = "T" ∨ s = "true" ∨ s = "TRUE" ∨ s = "True" ∨
      s = "0" ∨ s = "f" ∨ s = "F" ∨ s = "false" ∨ s = "FALSE" ∨ s = "False" := by
  constructor
  · intro h
    by_contra hn
    push_neg at hn
    obtain ⟨n1, n2, n3, n4, n5, n6, n7, n8, n9, n10, n11, n12⟩ := hn
    simp [stringToValue, strconvParseBool, n1, n2, n3, n4, n5, n6, n7, n8, n9,
      n10, n11, n12] at h
  · rintro (rfl | rfl | rfl | rfl | rfl | rfl | rfl | rfl | rfl | rfl | rfl | rfl) <;> decide

/-- Claim C1 (failing input): the node `DEMO 1.0.0` with `PORT = 5` passes
`ValidateValues`; `WriteConfigFile` produces text, re-parsing it with
`Merge` into the fresh node raises no error, yet the resulting value set is
empty instead of identical (the one-character value is dropped by the
`idx < len(pair)-2` guard, and the end-of-input `setValue` error is
discarded). -/
theorem c1_roundtrip_drops_one_char_value :
    c1demoWith5.ValidateValues = none ∧
    c1demoWith5.values = [("PORT", Value.int32 5)] ∧
    c1fileText.isSome = true ∧
    c1reparsed.2 = none ∧
    c1reparsed.1.values = [] := by decide

/-- Claim C2 (failing input): with `PORT` defaulted to `3000` and the
environment carrying `DEMO_CONFIG_PORT=8080`, `LoadDefaults` stores the
default with its printed form as location, but `MergeEnv` fails with
`InvalidConfigEnv` wrapping an invalid-name error for the lower-cased key
`port`, leaving the default value and its single location in place. -/
theorem c2_mergeEnv_rejects_every_matching_var :
    alookup c2afterDefaults.values "PORT" = some (Value.int32 3000) ∧
    c2afterDefaults.Locations "PORT" = .ok ["3000"] ∧
    c2res.2 = some (.invalidConfigEnv "1.0.0" "DEMO_CONFIG_PORT" (.invalidName "port")) ∧
    alookup c2res.1.values "PORT" = some (Value.int32 3000) ∧
    c2res.1.Locations "PORT" = .ok ["3000"] := by decide

/-- Claim C3 (failing input): `SUB` is registered as a subcommand of
`PARENT`, yet `Load` with first argument `SUB` (or `sub`) never selects it:
the lookup lower-cases the argument while the registry key is upper-case,
so the load falls through to plain argument merging and fails with an
unknown-option error, with `currentSub` still unset. -/
theorem c3_dispatch_never_fires :
    (alookup c3parentWithSub.subcommands "SUB").isSome = true ∧
    c3res.err = some (.invalidConfigFlag "1.0" "SUB"
      (.invalidValueForOption "SUB" (.unknownOption "1.0" "SUB"))) ∧
    (c3res.cfgOr c3parent).currentSub = none ∧
    c3resLower.err = some (.invalidConfigFlag "1.0" "sub"
      (.invalidValueForOption "SUB" (.unknownOption "1.0" "SUB"))) ∧
    (c3resLower.cfgOr c3parent).currentSub = none := by decide

/-- Claim C4 (failing input): the claimed registration is unreachable —
`New("demo", ...)` rejects the lower-case app name, and even with a valid
app name, registering a required `int32` option with no default panics
with `ErrInvalidDefault` (`Option.Validate` runs `ValidateValue` on the nil
default of a required option). On the claim's node built literally, the
rest of the pipeline behaves exactly as claimed: `-p=8080` yields
`GetInt32 = 8080` with the argument's provenance entry, and omitting it
yields the missing-option error naming `PORT`. -/
theorem c4_registration_unreachable_pipeline_agrees :
    exceptErr (New "demo" "1.0.0") = some (.invalidAppName "demo") ∧
    c4registrationTry = some .invalidDefault ∧
    c4argsRes.err = none ∧
    c4loaded.GetInt32 "PORT" = .ok 8080 ∧
    c4loaded.Locations "PORT" = .ok ["-p"] ∧
    c4missingRes.err = some (.missingOption "1.0.0" "PORT") := by decide

/-- Counterexample to claim C8: the subcommand created by `Sub` has the
compound app identity `PARENT_SUB` and its environment prefix uses that
compound name, but all three config file paths it derives use only the
parent name `PARENT` — not the compound name the claim asserts. -/
theorem c8_sub_files_use_parent_name_only :
    c8child.app = "PARENT_SUB" ∧
    c8child.envConfigHead = "PARENT_SUB_CONFIG_" ∧
    c8child.UserFile c8dirs = "u/PARENT/PARENT.conf" ∧
    c8child.FirstGlobalsFile c8dirs = "g/PARENT/PARENT.conf" ∧
    c8child.LocalFile c8dirs = "w/.config/PARENT/PARENT.conf" ∧
    c8child.UserFile c8dirs ≠ "u/PARENT_SUB/PARENT_SUB.conf" := by decide

/-! ## Helper lemmas on the string models -/

theorem splitOnChar_ne_nil (sep : Char) (l : List Char) : splitOnChar sep l ≠ [] := by
  induction l with
  | nil => simp [splitOnChar]
  | cons c rest ih =>
    rw [splitOnChar]
    by_cases h : c = sep
    · simp [h]
    · simp only [h, if_false]
      cases hs : splitOnChar sep rest with
      | nil => simp
      | cons g gs => simp

theorem joinSepL_cons (sep g : List Char) (gs : List (List Char)) (h : gs ≠ []) :
    joinSepL sep (g :: gs) = g ++ sep ++ joinSepL sep gs := by
  cases gs with
  | nil => exact absurd rfl h
  | cons g2 gs2 => rfl

theorem joinSepL_splitOnChar (sep : Char) (l : List Char) :
    joinSepL [sep] (splitOnChar sep l) = l := by
  induction l with
  | nil => rfl
  | cons c rest ih =>
    rw [splitOnChar]
    by_cases h : c = sep
    · subst h
      rw [if_pos rfl, joinSepL_cons [c] [] _ (splitOnChar_ne_nil c rest)]
      simpa using ih
    · rw [if_neg h]
      cases hs : splitOnChar sep rest with
      | nil => exact absurd hs (splitOnChar_ne_nil sep rest)
      | cons g gs =>
        rw [hs] at ih
        cases gs with
        | nil => simpa [joinSepL] using ih
        | cons g2 gs2 =>
          have e1 : joinSepL [sep] ((c :: g) :: g2 :: gs2) =
              (c :: g) ++ [sep] ++ joinSepL [sep] (g2 :: gs2) := rfl
          have e2 : joinSepL [sep] (g :: g2 :: gs2) =
              g ++ [sep] ++ joinSepL [sep] (g2 :: gs2) := rfl
          rw [e2] at ih
          rw [e1]
          simpa using ih

theorem splitOnChar_of_not_mem {sep : Char} {l : List Char} (h : sep ∉ l) :
    splitOnChar sep l = [l] := by
  induction l with
  | nil => rfl
  | cons c rest ih =>
    have hc : ¬ c = sep := fun hh => h (hh ▸ List.mem_cons_self c rest)
    have hr : sep ∉ rest := fun hh => h (List.mem_cons_of_mem _ hh)
    rw [splitOnChar, if_neg hc, ih hr]

theorem splitOnChar_append_sep {sep : Char} {w t : List Char} (h : sep ∉ w) :
    splitOnChar sep (w ++ sep :: t) = w :: splitOnChar sep t := by
  induction w with
  | nil => simp [splitOnChar]
  | cons c w' ih =>
    have hc : ¬ c = sep := fun hh => h (hh ▸ List.mem_cons_self c w')
    have hw : sep ∉ w' := fun hh => h (List.mem_cons_of_mem _ hh)
    rw [List.cons_append, splitOnChar, if_neg hc, ih hw]

theorem splitOnChar_joinSepL {sep : Char} {ws : List (List Char)} (hne : ws ≠ [])
    (hnm : ∀ w ∈ ws, sep ∉ w) :
    splitOnChar sep (joinSepL [sep] ws) = ws := by
  induction ws with
  | nil => exact absurd rfl hne
  | cons w ws' ih =>
    cases ws' with
    | nil =>
      have := splitOnChar_of_not_mem (hnm w (List.mem_cons_self w []))
      simpa [joinSepL] using this
    | cons w2 ws2 =>
      rw [joinSepL_cons [sep] w _ (by simp)]
      have e1 : w ++ [sep] ++ joinSepL [sep] (w2 :: ws2) =
          w ++ sep :: joinSepL [sep] (w2 :: ws2) := by simp
      rw [e1, splitOnChar_append_sep (hnm w (List.mem_cons_self w _))]
      rw [ih (by simp) (fun x hx => hnm x (List.mem_cons_of_mem _ hx))]

theorem wordRegexpMatch_ne_nil {w : String} (h : wordRegexpMatch w = true) :
    w.data ≠ [] := by
  intro hd
  unfold wordRegexpMatch at h
  rw [hd] at h
  simp at h

theorem wordRegexpMatch_no_underscore {w : String} (h : wordRegexpMatch w = true) :
    '_' ∉ w.data := by
  intro hm
  unfold wordRegexpMatch at h
  cases hd : w.data with
  | nil => rw [hd] at hm; simp at hm
  | cons c rest =>
    rw [hd] at h
    rw [hd] at hm
    simp only [Bool.and_eq_true, List.all_eq_true] at h
    obtain ⟨⟨hc, _⟩, hall⟩ := h
    rcases List.mem_cons.mp hm with h1 | h2
    · rw [← h1] at hc
      simp [isUpperAZ] at hc
    · have := hall '_' h2
      simp [isUpperAZ, isDigit09] at this

/-- Claim C6: `ValidateName` accepts a string exactly when it is a
non-empty sequence of words joined by `_` with every word matching
`[A-Z][A-Z0-9]+`; in particular `AB_CD2` is accepted while `A_BC`,
`ab_cd` and `_AB` are rejected. -/
theorem c6_validateName_characterization :
    (∀ s : String, ValidateName s = true ↔ specValidName s) ∧
    ValidateName "AB_CD2" = true ∧ ValidateName "A_BC" = false ∧
    ValidateName "ab_cd" = false ∧ ValidateName "_AB" = false := by
  refine ⟨fun s => ?_, by decide, by decide, by decide, by decide⟩
  constructor
  · intro h
    unfold ValidateName at h
    by_cases hs : s = ""
    · rw [if_pos hs] at h; simp at h
    · rw [if_neg hs] at h
      refine ⟨stringsSplit s '_', ?_, ?_, ?_⟩
      · unfold stringsSplit
        intro hh
        exact splitOnChar_ne_nil '_' s.data (List.map_eq_nil_iff.mp hh)
      · exact fun w hw => List.all_eq_true.mp h w hw
      · have hmaps : List.map String.data
            (List.map (fun l : List Char => (⟨l⟩ : String)) (splitOnChar '_' s.data)) =
            splitOnChar '_' s.data := by
          rw [List.map_map]
          have hid : (String.data ∘ fun l : List Char => (⟨l⟩ : String)) = id := rfl
          rw [hid, List.map_id]
        have hrw : stringsJoin (stringsSplit s '_') "_" =
            ⟨joinSepL ['_'] (splitOnChar '_' s.data)⟩ := by
          unfold stringsJoin stringsSplit
          rw [hmaps]
        rw [hrw, joinSepL_splitOnChar '_' s.data]
  · rintro ⟨ws, hne, hall, rfl⟩
    unfold ValidateName
    have hdata : (stringsJoin ws "_").data = joinSepL ['_'] (List.map String.data ws) := rfl
    have hnm2 : ∀ l ∈ List.map String.data ws, '_' ∉ l := by
      intro l hl
      obtain ⟨w, hw, hwl⟩ := List.mem_map.mp hl
      rw [← hwl]
      exact wordRegexpMatch_no_underscore (hall w hw)
    have hsplit : stringsSplit (stringsJoin ws "_") '_' = ws := by
      unfold stringsSplit
      rw [hdata, splitOnChar_joinSepL (by simpa using hne) hnm2]
      have hid : ((fun l : List Char => (⟨l⟩ : String)) ∘ String.data) = id := rfl
      rw [List.map_map, hid, List.map_id]
    have hne2 : ¬ stringsJoin ws "_" = "" := by
      intro hh
      have hd : joinSepL ['_'] (List.map String.data ws) = ([] : List Char) := by
        rw [← hdata, hh]
      cases ws with
      | nil => exact hne rfl
      | cons w ws' =>
        cases ws' with
        | nil =>
          have hw : w.data = [] := by simpa [joinSepL] using hd
          exact wordRegexpMatch_ne_nil (hall w (List.mem_cons_self w [])) hw
        | cons w2 ws2 =>
          rw [List.map_cons, joinSepL_cons ['_'] w.data _ (by simp)] at hd
          simp at hd
    rw [if_neg hne2, hsplit]
    exact List.all_eq_true.mpr hall

theorem alookup_ainsert_self {α : Type} (m : List (String × α)) (k : String) (v : α) :
    alookup (ainsert m k v) k = some v := by
  induction m with
  | nil => simp [ainsert, alookup]
  | cons p rest ih =>
    obtain ⟨k', v'⟩ := p
    rw [ainsert]
    by_cases h : k' = k
    · simp [alookup, h]
    · rw [if_neg h]
      simpa [alookup, h] using ih

theorem listIndexOfChar_eq_none_iff {l : List Char} {c : Char} :
    listIndexOfChar l c = none ↔ c ∉ l := by
  induction l with
  | nil => simp [listIndexOfChar]
  | cons a rest ih =>
    rw [listIndexOfChar]
    by_cases h : a = c
    · simp [h]
    · rw [if_neg h, Option.map_eq_none', ih]
      constructor
      · intro hn hm
        rcases List.mem_cons.mp hm with h1 | h2
        · exact h h1.symm
        · exact hn h2
      · intro hn hm
        exact hn (List.mem_cons_of_mem _ hm)

theorem takeWhile_append_of_all {α : Type} (p : α → Bool) (l₁ l₂ : List α)
    (h : ∀ a ∈ l₁, p a = true) :
    (l₁ ++ l₂).takeWhile p = l₁ ++ l₂.takeWhile p := by
  induction l₁ with
  | nil => simp
  | cons a t ih =>
    rw [List.cons_append]
    simp [List.takeWhile_cons, h a (List.mem_cons_self a t),
      ih (fun x hx => h x (List.mem_cons_of_mem _ hx))]

theorem subcommands_withSubcommands (c : Config) (su : List (String × Config)) :
    (c.withSubcommands su).subcommands = su := by
  cases c
  rfl

/-- Claim C8 as amended: for a subcommand node created by `Sub` (compound
app identity `parent_child`), the environment prefix `MergeEnv` scans for
is namespaced under the compound name, but the derived config file paths
(`UserFile`, `FirstGlobalsFile`, `LocalFile`) coincide with the parent's —
`appName` truncates the compound identity at the first underscore, so the
files are namespaced under the parent name alone. -/
theorem c8_amended_sub_namespacing (p : Config) (name : String) (d : Dirs)
    (h1 : p.isSub = false) (h2 : ValidateName name = true)
    (h3 : ValidateVersion p.version = true) :
    ∃ p' ch, p.Sub name = .ok p' ∧ alookup p'.subcommands name = some ch ∧
      ch.app = p.app ++ "_" ++ name ∧
      ch.envConfigHead = stringsToUpper (p.app ++ "_" ++ name) ++ "_CONFIG_" ∧
      ch.UserFile d = p.UserFile d ∧
      ch.FirstGlobalsFile d = p.FirstGlobalsFile d ∧
      ch.LocalFile d = p.LocalFile d ∧
      p.appName = p.app := by
  have hnew : New name p.version =
      .ok ((Config.mk name p.version [] [] [] [] [] none).Reset) := by
    unfold New
    rw [if_neg (by simp [h2]), if_neg (by simp [h3])]
  set ch : Config := ((Config.mk name p.version [] [] [] [] [] none).Reset).withApp
    (p.app ++ "_" ++ name) with hchdef
  have hsub : p.Sub name = .ok (p.withSubcommands (ainsert p.subcommands name ch)) := by
    unfold Config.Sub
    rw [if_neg (by simp [h1]), hnew]
    rfl
  have hchapp : ch.app = p.app ++ "_" ++ name := rfl
  have hnm : '_' ∉ p.app.data := by
    have h1' : stringsIndexChar p.app '_' = none := by
      unfold Config.isSub at h1
      simpa using h1
    exact listIndexOfChar_eq_none_iff.mp h1'
  have happD : ch.app.data = p.app.data ++ '_' :: name.data := by
    have e1 : ch.app.data = (p.app.data ++ ['_']) ++ name.data := rfl
    rw [e1, List.append_assoc]
    rfl
  have hchsub : ch.isSub = true := by
    unfold Config.isSub stringsIndexChar
    rw [happD]
    simp [listIndexOfChar_eq_none_iff, List.mem_append]
  have hChAppName : ch.appName = p.app := by
    unfold Config.appName
    rw [hchsub]
    simp only [if_true]
    rw [happD, takeWhile_append_of_all _ _ _
      (fun a ha => decide_eq_true (show a ≠ '_' from fun he => hnm (he ▸ ha)))]
    simp [List.takeWhile_cons]
  have hPAppName : p.appName = p.app := by
    unfold Config.appName
    rw [h1]
    simp
  refine ⟨_, ch, hsub, ?_, hchapp, ?_, ?_, ?_, ?_, hPAppName⟩
  · rw [subcommands_withSubcommands, alookup_ainsert_self]
  · unfold Config.envConfigHead
    rw [hchapp]
  · unfold Config.UserFile
    rw [hChAppName, hPAppName]
  · unfold Config.FirstGlobalsFile Config.globalsFile
    rw [hChAppName, hPAppName]
  · unfold Config.LocalFile
    rw [hChAppName, hPAppName]

/-- Witness for the amended C8 at parent `PARENT`, subcommand `SUB`. -/
theorem c8_amended_sub_namespacing_witness :
    ∃ p' ch, c8parent.Sub "SUB" = .ok p' ∧ alookup p'.subcommands "SUB" = some ch ∧
      ch.app = c8parent.app ++ "_" ++ "SUB" ∧
      ch.envConfigHead = stringsToUpper (c8parent.app ++ "_" ++ "SUB") ++ "_CONFIG_" ∧
      ch.UserFile c8dirs = c8parent.UserFile c8dirs ∧
      ch.FirstGlobalsFile c8dirs = c8parent.FirstGlobalsFile c8dirs ∧
      ch.LocalFile c8dirs = c8parent.LocalFile c8dirs ∧
      c8parent.appName = c8parent.app :=
  c8_amended_sub_namespacing c8parent "SUB" c8dirs (by decide) (by decide) (by decide)
